import Mathlib

/-!
Verification development for the Git-Conflict-Detector core
(`src/git-conflict-detector.ts`).

The detector is a single orchestration routine: validate a configuration,
validate the local repository, resolve the merge-base commit between a
remote-tracking reference and a local branch, collect one change list
locally (via the version-control command runner) and one remotely (via the
hosting API), and intersect the two path lists.

External collaborators (filesystem, command runner, remote comparison
service) are modelled by an explicit `Env` record of total functions whose
results may carry thrown faults, so every behaviour of the collaborators
is quantified over.  JS string primitives (`trim`, `split`, `join`,
template literals) are modelled by structurally recursive Lean functions
over `List Char` so that all definitions are kernel-executable.
-/

namespace GitConflict

/-! ## Models of the JS string primitives -/

/-- Whitespace predicate used to model the JS `String.prototype.trim` family. -/
def jsWhitespace (c : Char) : Bool := c.isWhitespace

/-- Model of `s.trim()`: remove whitespace from both ends of the string. -/
def jsTrim (s : String) : String :=
  String.mk (List.dropWhile jsWhitespace (List.rdropWhile jsWhitespace s.data))

/-- Model of removing the `\s*` part after a leading `*` marker
(`replace(/^\*\s*/, '')` once the `*` itself has been removed). -/
def jsTrimLeft (s : String) : String :=
  String.mk (List.dropWhile jsWhitespace s.data)

/-- Model of JS `String.prototype.split` with a single-character separator:
always returns at least one (possibly empty) group. -/
def splitChar (sep : Char) : List Char → List (List Char)
  | [] => [[]]
  | c :: cs =>
    match splitChar sep cs with
    | [] => [[]]
    | g :: gs => if c = sep then [] :: g :: gs else (c :: g) :: gs

/-- String-level wrapper of `splitChar`. -/
def jsSplit (sep : Char) (s : String) : List String :=
  (splitChar sep s.data).map String.mk

/-- Model of JS `Array.prototype.join` with a single-character separator. -/
def joinWithChar (sep : Char) : List String → String
  | [] => ""
  | [s] => s
  | s :: ss => s ++ String.mk [sep] ++ joinWithChar sep ss

/-- Does `l` start with `pre`? (list-level helper for substring search). -/
def charsStartWith : List Char → List Char → Bool
  | _, [] => true
  | [], _ :: _ => false
  | a :: as, b :: bs => a == b && charsStartWith as bs

/-- Does `pat` occur as a contiguous run inside `l`? -/
def charsContain (pat : List Char) : List Char → Bool
  | [] => charsStartWith [] pat
  | a :: t => charsStartWith (a :: t) pat || charsContain pat t

/-- Substring test on strings (models JS `String.prototype.includes`). -/
def strContains (s pat : String) : Bool :=
  charsContain pat.data s.data

/-! ## Data model (`git-conflict-detector.ts` interfaces) -/

/-- Configuration for the detector (`GitConflictDetectorConfig`). -/
structure GitConflictDetectorConfig where
  owner : String
  repo : String
  accessToken : String
  localRepoPath : String
  branchA : String
  branchB : String
  deriving Repr, DecidableEq

/-- Result of the conflict detection (`ConflictDetectionResult`);
`error? = none` models an absent `error` field. -/
structure ConflictDetectionResult where
  potentialConflicts : List String
  mergeBaseCommit : String
  error? : Option String
  deriving Repr, DecidableEq

/-- A file change representation (`FileChange`). -/
structure FileChange where
  filename : String
  status : String
  deriving Repr, DecidableEq

/-! ## Model of the external collaborators -/

/-- A JS thrown value: either an `Error` instance carrying a `.message`,
or any other value, carrying its `String(...)` rendering. -/
inductive Thrown where
  | err (message : String)
  | other (rendering : String)
  deriving Repr, DecidableEq

/-- `error instanceof Error ? error.message : String(error)`. -/
def Thrown.toResultMessage : Thrown → String
  | .err m => m
  | .other v => v

/-- Outcome of the `axios.get` call on the comparison endpoint:
a successful response whose body may or may not carry a `files` array,
a rejection with `isAxiosError` (optional HTTP status, optional JSON
`message` in the body, and the error's own `.message`), or any other
thrown value. -/
inductive AxiosResult where
  | ok (files : Option (List FileChange))
  | axiosError (status : Option Nat) (dataMessage : Option String) (errMessage : String)
  | thrown (t : Thrown)
  deriving Repr, DecidableEq

/-- External collaborators consumed by the detector.
`execGit cwd fullCommand` models the synchronous command runner
(`execSync` with the given working directory), `pathExists` models
`fs.existsSync`, and `githubCompare url token` models the HTTP GET. -/
structure Env where
  pathExists : String → Bool
  execGit : String → String → Except Thrown String
  githubCompare : String → String → AxiosResult

/-- One collector invocation, recording the merge-base identifier it was
given (used to state the same-merge-base invariant). -/
inductive CollectorCall where
  | localCall (base : String)
  | remoteCall (base : String)
  deriving Repr, DecidableEq

/-- Decidable equality for `Except` outcomes (used to evaluate the
embedding on concrete collaborator environments). -/
instance {e a : Type} [DecidableEq e] [DecidableEq a] : DecidableEq (Except e a) := fun x y =>
  match x, y with
  | .ok u, .ok v =>
    if h : u = v then isTrue (by rw [h]) else isFalse (by intro hh; cases hh; exact h rfl)
  | .error u, .error v =>
    if h : u = v then isTrue (by rw [h]) else isFalse (by intro hh; cases hh; exact h rfl)
  | .ok _, .error _ => isFalse (by intro hh; cases hh)
  | .error _, .ok _ => isFalse (by intro hh; cases hh)

/-! ## The embedded code, translated function by function -/

/-- `execGitCommand`: run `git <command>` in the configured directory;
a thrown `Error` is rewrapped with the `Git command failed` prefix,
any other thrown value is rethrown unchanged. -/
def execGitCommand (cfg : GitConflictDetectorConfig) (env : Env)
    (command : String) : Except Thrown String :=
  match env.execGit cfg.localRepoPath ("git " ++ command) with
  | .ok result => .ok result
  | .error (.err m) =>
      .error (.err ("Git command failed: git " ++ command ++ " - " ++ m))
  | .error (.other v) => .error (.other v)

/-- `validateConfig`: fail-fast presence checks in declaration order,
then the filesystem existence check on the local path.  JS falsiness of
a string field is exactly the empty string. -/
def validateConfig (cfg : GitConflictDetectorConfig) (env : Env) : Option String :=
  if cfg.owner = "" then some "Owner is required"
  else if cfg.repo = "" then some "Repository name is required"
  else if cfg.accessToken = "" then some "Access token is required"
  else if cfg.localRepoPath = "" then some "Local repository path is required"
  else if cfg.branchA = "" then some "Branch A name is required"
  else if cfg.branchB = "" then some "Branch B name is required"
  else if !(env.pathExists cfg.localRepoPath) then
    some ("Local repository path does not exist: " ++ cfg.localRepoPath)
  else none

/-- The catch-clause of `validateLocalRepository`: an `Error` is reported
with the `Invalid git repository` prefix, any other thrown value is
reported by its `String(...)` rendering. -/
def repoErrorMessage (cfg : GitConflictDetectorConfig) : Thrown → String
  | .err m => "Invalid git repository at " ++ cfg.localRepoPath ++ ": " ++ m
  | .other v => v

/-- `branch.trim().replace(/^\*\s*/, '')`: trim, then strip one leading
`*` together with the whitespace that follows it. -/
def stripCheckoutMarker (s : String) : String :=
  let t := jsTrim s
  match t.data with
  | '*' :: rest => jsTrimLeft (String.mk rest)
  | _ => t

/-- The branch names extracted from a `git branch --list` output:
split into lines, per-line trim and marker strip, drop empties. -/
def branchListNames (output : String) : List String :=
  ((jsSplit '\n' output).map stripCheckoutMarker).filter (fun b => b != "")

/-- `validateLocalRepository`: check the path is inside a work tree,
then that `branchB` occurs among the listed local branches. -/
def validateLocalRepository (cfg : GitConflictDetectorConfig) (env : Env) : Option String :=
  match execGitCommand cfg env "rev-parse --is-inside-work-tree" with
  | .error t => some (repoErrorMessage cfg t)
  | .ok _ =>
    match execGitCommand cfg env "branch --list" with
    | .error t => some (repoErrorMessage cfg t)
    | .ok output =>
      let branches := branchListNames output
      if branches.contains cfg.branchB then none
      else some ("Branch \x27" ++ cfg.branchB ++ "\x27 does not exist locally")

/-- `findMergeBaseCommit`: ask for the merge-base of `origin/<branchA>`
and `branchB`; a blank (trimmed-empty) output raises inside the `try`,
so it is rewrapped by the function's own catch clause exactly like a
command failure. -/
def findMergeBaseCommit (cfg : GitConflictDetectorConfig) (env : Env) :
    Except Thrown String :=
  let remoteRef := "origin/" ++ cfg.branchA
  match execGitCommand cfg env ("merge-base " ++ remoteRef ++ " " ++ cfg.branchB) with
  | .ok out =>
    let mergeBase := jsTrim out
    if mergeBase = "" then
      -- the blank-result `throw` is caught by the function's own catch
      -- clause, which wraps the inner message with the fixed prefix
      .error (.err ("Failed to find merge base: " ++
        ("Could not find merge base between " ++ remoteRef ++ " and " ++ cfg.branchB)))
    else .ok mergeBase
  | .error (.err m) => .error (.err ("Failed to find merge base: " ++ m))
  | .error (.other v) => .error (.other v)

/-- One line of `git diff --name-status` output: trim, split on tab,
first field is the status, the remaining fields are rejoined with tabs
to reconstruct filenames that legitimately contain tabs. -/
def parseDiffLine (line : String) : FileChange :=
  match jsSplit '\t' (jsTrim line) with
  | [] => { filename := "", status := "" }  -- unreachable: a JS split is never empty
  | status :: filenameParts =>
      { filename := joinWithChar '\t' filenameParts, status := status }

/-- `parseGitDiffOutput`: empty-after-trim output is the empty list;
otherwise trim the whole output, split into lines, drop empty lines and
parse each remaining line. -/
def parseGitDiffOutput (output : String) : List FileChange :=
  if jsTrim output = "" then []
  else
    ((jsSplit '\n' (jsTrim output)).filter (fun l => l != "")).map parseDiffLine

/-- `getLocalChanges`: diff the merge-base against `branchB` and parse;
a thrown `Error` is rewrapped with the `Failed to get local changes`
prefix. -/
def getLocalChanges (cfg : GitConflictDetectorConfig) (env : Env)
    (mergeBaseCommit : String) : Except Thrown (List FileChange) :=
  match execGitCommand cfg env
      ("diff --name-status " ++ mergeBaseCommit ++ " " ++ cfg.branchB) with
  | .ok output => .ok (parseGitDiffOutput output)
  | .error (.err m) => .error (.err ("Failed to get local changes: " ++ m))
  | .error (.other v) => .error (.other v)

/-- The comparison endpoint URL built by `getRemoteChanges`. -/
def compareUrl (cfg : GitConflictDetectorConfig) (mergeBaseCommit : String) : String :=
  "https://api.github.com/repos/" ++ cfg.owner ++ "/" ++ cfg.repo
    ++ "/compare/" ++ mergeBaseCommit ++ "..." ++ cfg.branchA

/-- Rendering of `${statusCode}` in the template literal: a present
numeric status prints in decimal, an absent one prints as `undefined`
(the JS rendering of the `undefined` value). -/
def statusCodeDisplay : Option Nat → String
  | some n => toString n
  | none => "undefined"

/-- `axiosError.response?.data?.message || axiosError.message`: the JS
`||` falls through on an absent *or empty* body message. -/
def axiosMessageDisplay (dataMessage : Option String) (errMessage : String) : String :=
  match dataMessage with
  | some d => if d = "" then errMessage else d
  | none => errMessage

/-- `getRemoteChanges`: call the comparison endpoint; a missing `files`
array is treated as empty; an axios rejection is formatted with status
code and message; any other thrown value is wrapped with the
`Failed to get remote changes` prefix (as an `Error` in both branches). -/
def getRemoteChanges (cfg : GitConflictDetectorConfig) (env : Env)
    (mergeBaseCommit : String) : Except Thrown (List FileChange) :=
  match env.githubCompare (compareUrl cfg mergeBaseCommit) cfg.accessToken with
  | .ok files =>
      .ok ((files.getD []).map (fun file =>
        { filename := file.filename, status := file.status }))
  | .axiosError status dataMessage errMessage =>
      .error (.err ("GitHub API error (" ++ statusCodeDisplay status ++ "): "
        ++ axiosMessageDisplay dataMessage errMessage))
  | .thrown (.err m) => .error (.err ("Failed to get remote changes: " ++ m))
  | .thrown (.other v) => .error (.err ("Failed to get remote changes: " ++ v))

/-- `findCommonChanges`: build the set of local filenames (membership in
a JS `Set` of strings is exact string equality), filter the remote list
by membership, and project to filenames. -/
def findCommonChanges (localChanges remoteChanges : List FileChange) : List String :=
  let localFiles := localChanges.map (fun change => change.filename)
  (remoteChanges.filter (fun change => localFiles.contains change.filename)).map
    (fun change => change.filename)

/-- An error-carrying result: both other fields reset to their empty
defaults. -/
def errorResult (msg : String) : ConflictDetectionResult :=
  { potentialConflicts := [], mergeBaseCommit := "", error? := some msg }

/-- `findPotentialConflicts`, instrumented with the list of collector
invocations (each recording the merge-base identifier it received).
The stages run strictly sequentially; any thrown fault is caught at this
boundary and converted into an error result. -/
def findPotentialConflictsTraced (cfg : GitConflictDetectorConfig) (env : Env) :
    ConflictDetectionResult × List CollectorCall :=
  match validateConfig cfg env with
  | some configError => (errorResult configError, [])
  | none =>
    match validateLocalRepository cfg env with
    | some repoError => (errorResult repoError, [])
    | none =>
      match findMergeBaseCommit cfg env with
      | .error t => (errorResult t.toResultMessage, [])
      | .ok mergeBaseCommit =>
        match getLocalChanges cfg env mergeBaseCommit with
        | .error t =>
            (errorResult t.toResultMessage, [CollectorCall.localCall mergeBaseCommit])
        | .ok localChanges =>
          match getRemoteChanges cfg env mergeBaseCommit with
          | .error t =>
              (errorResult t.toResultMessage,
               [CollectorCall.localCall mergeBaseCommit,
                CollectorCall.remoteCall mergeBaseCommit])
          | .ok remoteChanges =>
              ({ potentialConflicts := findCommonChanges localChanges remoteChanges,
                 mergeBaseCommit := mergeBaseCommit,
                 error? := none },
               [CollectorCall.localCall mergeBaseCommit,
                CollectorCall.remoteCall mergeBaseCommit])

/-- The public operation: the result component of the traced run. -/
def findPotentialConflicts (cfg : GitConflictDetectorConfig) (env : Env) :
    ConflictDetectionResult :=
  (findPotentialConflictsTraced cfg env).1


/-! ## General lemmas about the embedding -/

/-- A right-trimmed-then-left-trimmed list is unchanged by another right
trim: dropping a prefix cannot expose new trailing elements. -/
theorem trimmed_rdropWhile_fixed {α : Type} (p : α → Bool) (l : List α) :
    List.rdropWhile p (List.dropWhile p (List.rdropWhile p l)) =
      List.dropWhile p (List.rdropWhile p l) := by
  rw [List.rdropWhile_eq_self_iff]
  intro hne
  obtain ⟨t, ht⟩ := List.dropWhile_suffix (l := List.rdropWhile p l) p
  have hmne : List.rdropWhile p l ≠ [] := by
    intro h
    apply hne
    rw [h]
    rfl
  have h1 : (List.dropWhile p (List.rdropWhile p l)).getLast? =
      some ((List.dropWhile p (List.rdropWhile p l)).getLast hne) :=
    List.getLast?_eq_getLast_of_ne_nil hne
  have h2 : (List.rdropWhile p l).getLast? =
      some ((List.rdropWhile p l).getLast hmne) :=
    List.getLast?_eq_getLast_of_ne_nil hmne
  have h3 : (List.rdropWhile p l).getLast? =
      (List.dropWhile p (List.rdropWhile p l)).getLast? := by
    conv_lhs => rw [← ht]
    exact List.getLast?_append_of_ne_nil _ hne
  rw [h1, h2] at h3
  rw [← Option.some_inj.mp h3]
  exact List.rdropWhile_last_not p l hmne

/-- The JS `trim` model is idempotent. -/
theorem jsTrim_idem (s : String) : jsTrim (jsTrim s) = jsTrim s := by
  unfold jsTrim
  rw [show (String.mk (List.dropWhile jsWhitespace (List.rdropWhile jsWhitespace s.data))).data
      = List.dropWhile jsWhitespace (List.rdropWhile jsWhitespace s.data) from rfl]
  rw [trimmed_rdropWhile_fixed, List.dropWhile_idempotent]


/-! ## Claim-side specification definitions and sample fixtures -/

/-- The parsing rule as the specification words it: take the lines of the
(whitespace-trimmed) diff output, drop blank lines, trim each remaining
line, split it on the tab character, take the first field as the change
kind and rejoin all remaining fields with tabs as the path. -/
def parseGitDiffOutputSpec (output : String) : List FileChange :=
  ((jsSplit '\n' (jsTrim output)).filter (fun line => line != "")).map (fun line =>
    match jsSplit '\t' (jsTrim line) with
    | [] => { filename := "", status := "" }
    | kind :: rest => { filename := joinWithChar '\t' rest, status := kind })

/-- A fully-populated sample configuration (mirrors the repository's own
test fixture). -/
def sampleConfig : GitConflictDetectorConfig :=
  { owner := "test-owner", repo := "test-repo", accessToken := "test-token",
    localRepoPath := "/path/to/repo", branchA := "branchA", branchB := "branchB" }

/-- A collaborator environment in which every stage succeeds (mirrors the
repository's default test mocks). -/
def sampleEnv : Env :=
  { pathExists := fun _ => true,
    execGit := fun _ cmd =>
      if cmd = "git rev-parse --is-inside-work-tree" then .ok "true"
      else if cmd = "git branch --list" then .ok "* branchA\n  branchB"
      else if cmd = "git merge-base origin/branchA branchB" then
        .ok "mergebasecommithash123\n"
      else if cmd = "git diff --name-status mergebasecommithash123 branchB" then
        .ok "M\tsrc/file1.js\nA\tsrc/file2.js\nD\tsrc/file3.js"
      else .ok "",
    githubCompare := fun _ _ =>
      .ok (some [⟨"src/file1.js", "modified"⟩, ⟨"src/file4.js", "added"⟩]) }

/-- `sampleEnv` with a blank merge-base command output. -/
def blankMergeBaseEnv : Env :=
  { sampleEnv with
    execGit := fun _ cmd =>
      if cmd = "git rev-parse --is-inside-work-tree" then .ok "true"
      else if cmd = "git branch --list" then .ok "* branchA\n  branchB"
      else if cmd = "git merge-base origin/branchA branchB" then .ok "   \n"
      else .ok "" }

/-- `sampleEnv` with an axios rejection carrying no HTTP status (the
repository test "should handle GitHub API errors without status code"). -/
def noStatusEnv : Env :=
  { sampleEnv with
    githubCompare := fun _ _ => .axiosError none none "Network Error" }

/-- `sampleEnv` with a structured 404 rejection. -/
def notFoundEnv : Env :=
  { sampleEnv with
    githubCompare := fun _ _ =>
      .axiosError (some 404) (some "Not Found") "Request failed with status code 404" }

/-- `sampleEnv` whose comparison response body carries no `files` array. -/
def noFilesEnv : Env :=
  { sampleEnv with githubCompare := fun _ _ => .ok none }


/-- `List.contains` on strings is decidable membership. -/
theorem contains_eq_mem_decide (a : String) (l : List String) :
    l.contains a = decide (a ∈ l) := by
  by_cases h : a ∈ l <;> simp [h, List.contains, List.elem_iff]

/-- A failing configuration check short-circuits the whole operation into
an error result carrying exactly the validator's message. -/
theorem validateConfig_some_result (cfg : GitConflictDetectorConfig) (env : Env)
    (m : String) (h : validateConfig cfg env = some m) :
    findPotentialConflicts cfg env = errorResult m := by
  unfold findPotentialConflicts findPotentialConflictsTraced
  rw [h]

/-- A successfully resolved merge-base identifier is non-blank and
already trimmed. -/
theorem mergeBase_ok_props (cfg : GitConflictDetectorConfig) (env : Env)
    (b : String) (h : findMergeBaseCommit cfg env = .ok b) :
    b ≠ "" ∧ jsTrim b = b := by
  unfold findMergeBaseCommit at h
  dsimp only [] at h
  split at h
  next out heq =>
    split at h
    next hblank => exact absurd h (by simp)
    next hblank =>
      obtain rfl : jsTrim out = b := by simpa using h
      exact ⟨hblank, jsTrim_idem out⟩
  next m heq => exact absurd h (by simp)
  next v heq => exact absurd h (by simp)

/-- A result with no error comes from the success path: its merge-base
field is the identifier the resolver returned. -/
theorem error_none_shape (cfg : GitConflictDetectorConfig) (env : Env) :
    (findPotentialConflicts cfg env).error? = none →
      ∃ mb, findMergeBaseCommit cfg env = .ok mb ∧
        (findPotentialConflicts cfg env).mergeBaseCommit = mb := by
  unfold findPotentialConflicts findPotentialConflictsTraced
  repeat' split
  all_goals simp_all [errorResult]

/-- A result with an error is exactly `errorResult` of that message. -/
theorem error_some_is_errorResult (cfg : GitConflictDetectorConfig) (env : Env)
    (e : String) :
    (findPotentialConflicts cfg env).error? = some e →
      findPotentialConflicts cfg env = errorResult e := by
  unfold findPotentialConflicts findPotentialConflictsTraced
  repeat' split
  all_goals simp_all [errorResult]

/-- Every collector call in the trace carries the identifier returned by
the resolver. -/
theorem trace_calls_base (cfg : GitConflictDetectorConfig) (env : Env) (b : String) :
    (CollectorCall.localCall b ∈ (findPotentialConflictsTraced cfg env).2 ∨
     CollectorCall.remoteCall b ∈ (findPotentialConflictsTraced cfg env).2) →
      findMergeBaseCommit cfg env = .ok b := by
  unfold findPotentialConflictsTraced
  repeat' split
  all_goals simp_all

/-- When merge-base resolution fails, no collector runs. -/
theorem trace_empty_of_mergeBase_error (cfg : GitConflictDetectorConfig) (env : Env)
    (t : Thrown) (h : findMergeBaseCommit cfg env = .error t) :
    (findPotentialConflictsTraced cfg env).2 = [] := by
  unfold findPotentialConflictsTraced
  repeat' split
  all_goals simp_all

/-! ## Claim theorems -/

/-- Claim C1: `findCommonChanges` returns exactly the filenames of the
remote entries whose filename occurs among the local filenames, in the
remote list's order, duplicates preserved; on the spec's example the
result is exactly `["file1.js"]`, and on disjoint lists it is `[]`. -/
theorem findCommonChanges_remote_filter
    (localChanges remoteChanges : List FileChange) :
    findCommonChanges localChanges remoteChanges =
      (remoteChanges.filter
        (fun change => decide (change.filename ∈ localChanges.map FileChange.filename))).map
        FileChange.filename ∧
    findCommonChanges
      [⟨"file1.js", "M"⟩, ⟨"file2.js", "M"⟩, ⟨"file3.js", "M"⟩]
      [⟨"file1.js", "modified"⟩, ⟨"file4.js", "added"⟩] = ["file1.js"] ∧
    findCommonChanges [⟨"a.js", "M"⟩, ⟨"b.js", "A"⟩]
      [⟨"c.js", "modified"⟩, ⟨"d.js", "added"⟩] = [] ∧
    findCommonChanges [⟨"f.js", "M"⟩, ⟨"g.js", "M"⟩]
      [⟨"f.js", "renamed"⟩, ⟨"h.js", "added"⟩, ⟨"f.js", "renamed"⟩] =
      ["f.js", "f.js"] := by
  refine ⟨?_, by decide, by decide, by decide⟩
  unfold findCommonChanges
  dsimp only []
  rw [List.filter_congr
    (fun c _hc => contains_eq_mem_decide c.filename
      (List.map (fun change => change.filename) localChanges))]

/-- Claim C4: the diff parser drops blank lines, trims each remaining
line, splits on tab, takes the first field as the change kind and rejoins
the remaining fields with tabs as the path; a line with embedded tabs in
the filename parses to a single entry with the tabs rejoined. -/
theorem parseGitDiffOutput_follows_spec (output : String) :
    parseGitDiffOutput output = parseGitDiffOutputSpec output ∧
    parseGitDiffOutput "M\tsrc/file\twith\ttabs.js" =
      [{ filename := "src/file\twith\ttabs.js", status := "M" }] ∧
    parseGitDiffOutput "M\tsrc/file1.js\nA\tsrc/file2.js\nD\tsrc/file3.js" =
      [{ filename := "src/file1.js", status := "M" },
       { filename := "src/file2.js", status := "A" },
       { filename := "src/file3.js", status := "D" }] := by
  refine ⟨?_, by decide, by decide⟩
  unfold parseGitDiffOutput parseGitDiffOutputSpec parseDiffLine
  split
  next h => rw [h]; rfl
  next h => rfl


/-- Claim C2: over every configuration and every collaborator behaviour
(fault injection included) the operation resolves to a total
`ConflictDetectionResult` — faults never escape the boundary, by the very
type of `findPotentialConflicts` over the fault-carrying `Env` — and in
every error-carrying result the other two fields are reset to `[]` and
the empty string. -/
theorem findPotentialConflicts_total_and_error_resets
    (cfg : GitConflictDetectorConfig) (env : Env) :
    (∃ r : ConflictDetectionResult, findPotentialConflicts cfg env = r) ∧
    ∀ e, (findPotentialConflicts cfg env).error? = some e →
      (findPotentialConflicts cfg env).potentialConflicts = [] ∧
      (findPotentialConflicts cfg env).mergeBaseCommit = "" := by
  refine ⟨⟨_, rfl⟩, ?_⟩
  intro e h
  have hr := error_some_is_errorResult cfg env e h
  rw [hr]
  exact ⟨rfl, rfl⟩

/-- Witness for C2: a remote-service fault yields an error result with
both other fields reset. -/
theorem findPotentialConflicts_total_and_error_resets_witness :
    (findPotentialConflicts sampleConfig noStatusEnv).error? =
        some "GitHub API error (undefined): Network Error" ∧
    (findPotentialConflicts sampleConfig noStatusEnv).potentialConflicts = [] ∧
    (findPotentialConflicts sampleConfig noStatusEnv).mergeBaseCommit = "" :=
  ⟨by decide,
   (findPotentialConflicts_total_and_error_resets sampleConfig noStatusEnv).2
     "GitHub API error (undefined): Network Error" (by decide)⟩

/-- Claim C3: both collectors are invoked with the identical merge-base
identifier returned by the resolver, that identifier is never blank, and
when resolution fails neither collector is invoked. -/
theorem collectors_same_mergeBase (cfg : GitConflictDetectorConfig) (env : Env) :
    (∀ b b', CollectorCall.localCall b ∈ (findPotentialConflictsTraced cfg env).2 →
       CollectorCall.remoteCall b' ∈ (findPotentialConflictsTraced cfg env).2 → b = b') ∧
    (∀ b, CollectorCall.localCall b ∈ (findPotentialConflictsTraced cfg env).2 ∨
          CollectorCall.remoteCall b ∈ (findPotentialConflictsTraced cfg env).2 →
       findMergeBaseCommit cfg env = .ok b ∧ b ≠ "") ∧
    (∀ t, findMergeBaseCommit cfg env = .error t →
       (findPotentialConflictsTraced cfg env).2 = []) := by
  refine ⟨?_, ?_, fun t h => trace_empty_of_mergeBase_error cfg env t h⟩
  · intro b b' hb hb'
    have h1 := trace_calls_base cfg env b (Or.inl hb)
    have h2 := trace_calls_base cfg env b' (Or.inr hb')
    rw [h1] at h2
    simpa using h2
  · intro b hb
    have h1 := trace_calls_base cfg env b hb
    exact ⟨h1, (mergeBase_ok_props cfg env b h1).1⟩

/-- Witness for C3: in the all-success environment the local collector is
invoked with the resolver's identifier, which is non-blank. -/
theorem collectors_same_mergeBase_witness :
    CollectorCall.localCall "mergebasecommithash123" ∈
        (findPotentialConflictsTraced sampleConfig sampleEnv).2 ∧
    findMergeBaseCommit sampleConfig sampleEnv = .ok "mergebasecommithash123" ∧
    "mergebasecommithash123" ≠ "" :=
  ⟨by decide,
   (collectors_same_mergeBase sampleConfig sampleEnv).2.1 _ (Or.inl (by decide))⟩

/-- Claim C10: every result satisfies the dichotomy — an error-carrying
result has `[]` conflicts and an empty merge-base field, while an
error-free result carries a non-empty merge-base identifier with no
surrounding whitespace (it is a fixed point of trimming). -/
theorem result_exclusive_invariant (cfg : GitConflictDetectorConfig) (env : Env) :
    ((findPotentialConflicts cfg env).error?.isSome = true →
       (findPotentialConflicts cfg env).potentialConflicts = [] ∧
       (findPotentialConflicts cfg env).mergeBaseCommit = "") ∧
    ((findPotentialConflicts cfg env).error? = none →
       (findPotentialConflicts cfg env).mergeBaseCommit ≠ "" ∧
       jsTrim (findPotentialConflicts cfg env).mergeBaseCommit =
         (findPotentialConflicts cfg env).mergeBaseCommit) := by
  constructor
  · intro h
    obtain ⟨e, he⟩ := Option.isSome_iff_exists.mp h
    have hr := error_some_is_errorResult cfg env e he
    rw [hr]
    exact ⟨rfl, rfl⟩
  · intro h
    obtain ⟨mb, hok, hmb⟩ := error_none_shape cfg env h
    have hp := mergeBase_ok_props cfg env mb hok
    rw [hmb]
    exact ⟨hp.1, hp.2⟩

/-- Witness for C10: a successful run carries a non-empty, trimmed
merge-base identifier. -/
theorem result_exclusive_invariant_witness :
    (findPotentialConflicts sampleConfig sampleEnv).error? = none ∧
    (findPotentialConflicts sampleConfig sampleEnv).mergeBaseCommit ≠ "" ∧
    jsTrim (findPotentialConflicts sampleConfig sampleEnv).mergeBaseCommit =
      (findPotentialConflicts sampleConfig sampleEnv).mergeBaseCommit :=
  ⟨by decide, (result_exclusive_invariant sampleConfig sampleEnv).2 (by decide)⟩


/-- `sampleEnv` with a nonexistent local repository path. -/
def noPathEnv : Env := { sampleEnv with pathExists := fun _ => false }

/-- Splitting the fixed resolution-failure prefix off a wrapped message. -/
theorem failed_prefix_split (rest : String) :
    "Failed to find merge base: " ++ rest =
      "Failed to find merge base" ++ (": " ++ rest) := by
  rw [← String.append_assoc]
  congr 1

/-- Claim C5: the configuration validator fails fast in the fixed field
order with the fixed message for the first failing field, the path
existence check coming last with its exact message, and the operation's
result carries exactly that message. -/
theorem validateConfig_fail_fast (cfg : GitConflictDetectorConfig) (env : Env) :
    (cfg.owner = "" →
       validateConfig cfg env = some "Owner is required" ∧
       findPotentialConflicts cfg env = errorResult "Owner is required") ∧
    (cfg.owner ≠ "" → cfg.repo = "" →
       validateConfig cfg env = some "Repository name is required" ∧
       findPotentialConflicts cfg env = errorResult "Repository name is required") ∧
    (cfg.owner ≠ "" → cfg.repo ≠ "" → cfg.accessToken = "" →
       validateConfig cfg env = some "Access token is required" ∧
       findPotentialConflicts cfg env = errorResult "Access token is required") ∧
    (cfg.owner ≠ "" → cfg.repo ≠ "" → cfg.accessToken ≠ "" → cfg.localRepoPath = "" →
       validateConfig cfg env = some "Local repository path is required" ∧
       findPotentialConflicts cfg env = errorResult "Local repository path is required") ∧
    (cfg.owner ≠ "" → cfg.repo ≠ "" → cfg.accessToken ≠ "" → cfg.localRepoPath ≠ "" →
     cfg.branchA = "" →
       validateConfig cfg env = some "Branch A name is required" ∧
       findPotentialConflicts cfg env = errorResult "Branch A name is required") ∧
    (cfg.owner ≠ "" → cfg.repo ≠ "" → cfg.accessToken ≠ "" → cfg.localRepoPath ≠ "" →
     cfg.branchA ≠ "" → cfg.branchB = "" →
       validateConfig cfg env = some "Branch B name is required" ∧
       findPotentialConflicts cfg env = errorResult "Branch B name is required") ∧
    (cfg.owner ≠ "" → cfg.repo ≠ "" → cfg.accessToken ≠ "" → cfg.localRepoPath ≠ "" →
     cfg.branchA ≠ "" → cfg.branchB ≠ "" →
     env.pathExists cfg.localRepoPath = false →
       validateConfig cfg env =
         some ("Local repository path does not exist: " ++ cfg.localRepoPath) ∧
       findPotentialConflicts cfg env =
         errorResult ("Local repository path does not exist: " ++ cfg.localRepoPath)) := by
  refine ⟨?_, ?_, ?_, ?_, ?_, ?_, ?_⟩ <;> intros <;>
    refine (fun hv => ⟨hv, validateConfig_some_result _ _ _ hv⟩) ?_ <;>
    simp [validateConfig, *]

/-- Witness for C5: with all six fields present but a nonexistent path,
the result carries exactly the path-existence message. -/
theorem validateConfig_fail_fast_witness :
    sampleConfig.owner ≠ "" ∧ sampleConfig.repo ≠ "" ∧
    sampleConfig.accessToken ≠ "" ∧ sampleConfig.localRepoPath ≠ "" ∧
    sampleConfig.branchA ≠ "" ∧ sampleConfig.branchB ≠ "" ∧
    noPathEnv.pathExists sampleConfig.localRepoPath = false ∧
    validateConfig sampleConfig noPathEnv =
      some ("Local repository path does not exist: " ++ sampleConfig.localRepoPath) ∧
    findPotentialConflicts sampleConfig noPathEnv =
      errorResult ("Local repository path does not exist: " ++ sampleConfig.localRepoPath) := by
  refine ⟨by decide, by decide, by decide, by decide, by decide, by decide, by decide, ?_, ?_⟩
  · exact ((validateConfig_fail_fast sampleConfig noPathEnv).2.2.2.2.2.2
      (by decide) (by decide) (by decide) (by decide) (by decide) (by decide) (by decide)).1
  · exact ((validateConfig_fail_fast sampleConfig noPathEnv).2.2.2.2.2.2
      (by decide) (by decide) (by decide) (by decide) (by decide) (by decide) (by decide)).2

/-- Claim C6: a blank (trimmed-empty) merge-base command output is a
failure whose message starts with the fixed resolution-failure prefix —
no default ancestor is substituted — and it surfaces in the final result;
a non-blank output resolves to exactly the trimmed command output. -/
theorem mergeBase_blank_fails (cfg : GitConflictDetectorConfig) (env : Env)
    (out : String)
    (hcmd : env.execGit cfg.localRepoPath
        ("git " ++ ("merge-base " ++ ("origin/" ++ cfg.branchA) ++ " " ++ cfg.branchB)) =
        .ok out) :
    (jsTrim out = "" →
       (∃ suf, findMergeBaseCommit cfg env =
          .error (.err ("Failed to find merge base" ++ suf))) ∧
       (validateConfig cfg env = none → validateLocalRepository cfg env = none →
          ∃ suf, (findPotentialConflicts cfg env).error? =
            some ("Failed to find merge base" ++ suf))) ∧
    (jsTrim out ≠ "" → findMergeBaseCommit cfg env = .ok (jsTrim out)) := by
  have hexec : execGitCommand cfg env
      ("merge-base " ++ ("origin/" ++ cfg.branchA) ++ " " ++ cfg.branchB) = .ok out := by
    unfold execGitCommand
    rw [hcmd]
  constructor
  · intro hb
    have hfmb : findMergeBaseCommit cfg env =
        .error (.err ("Failed to find merge base" ++
          (": " ++ ("Could not find merge base between " ++
            ("origin/" ++ cfg.branchA) ++ " and " ++ cfg.branchB)))) := by
      unfold findMergeBaseCommit
      dsimp only []
      rw [hexec]
      dsimp only []
      rw [if_pos hb, ← failed_prefix_split]
    refine ⟨⟨_, hfmb⟩, ?_⟩
    intro hv hr
    refine ⟨": " ++ ("Could not find merge base between " ++
      ("origin/" ++ cfg.branchA) ++ " and " ++ cfg.branchB), ?_⟩
    unfold findPotentialConflicts findPotentialConflictsTraced
    rw [hv, hr, hfmb]
    rfl
  · intro hb
    unfold findMergeBaseCommit
    dsimp only []
    rw [hexec]
    dsimp only []
    rw [if_neg hb]

/-- Witness for C6: a whitespace-only merge-base output makes the
operation fail with the resolution-failure prefix. -/
theorem mergeBase_blank_fails_witness :
    blankMergeBaseEnv.execGit sampleConfig.localRepoPath
        ("git " ++ ("merge-base " ++ ("origin/" ++ sampleConfig.branchA) ++ " " ++
          sampleConfig.branchB)) = .ok "   \n" ∧
    jsTrim "   \n" = "" ∧
    validateConfig sampleConfig blankMergeBaseEnv = none ∧
    validateLocalRepository sampleConfig blankMergeBaseEnv = none ∧
    ∃ suf, (findPotentialConflicts sampleConfig blankMergeBaseEnv).error? =
      some ("Failed to find merge base" ++ suf) :=
  ⟨by decide, by decide, by decide, by decide,
   ((mergeBase_blank_fails sampleConfig blankMergeBaseEnv "   \n" (by decide)).1
      (by decide)).2 (by decide) (by decide)⟩

/-- Claim C7: branch matching splits the listing into lines, trims each,
strips the leading checked-out marker with its following whitespace,
discards empties, and compares by exact string equality; a present branch
passes and an absent branch yields exactly the quoted message. -/
theorem validateLocalRepository_branch_match (cfg : GitConflictDetectorConfig)
    (env : Env) (o listing : String)
    (hrev : env.execGit cfg.localRepoPath
        ("git " ++ "rev-parse --is-inside-work-tree") = .ok o)
    (hlist : env.execGit cfg.localRepoPath ("git " ++ "branch --list") = .ok listing) :
    (cfg.branchB ∈
        ((jsSplit '\n' listing).map stripCheckoutMarker).filter (fun b => b != "") →
       validateLocalRepository cfg env = none) ∧
    (cfg.branchB ∉
        ((jsSplit '\n' listing).map stripCheckoutMarker).filter (fun b => b != "") →
       validateLocalRepository cfg env =
         some ("Branch \x27" ++ cfg.branchB ++ "\x27 does not exist locally")) := by
  have h1 : execGitCommand cfg env "rev-parse --is-inside-work-tree" = .ok o := by
    unfold execGitCommand
    rw [hrev]
  have h2 : execGitCommand cfg env "branch --list" = .ok listing := by
    unfold execGitCommand
    rw [hlist]
  unfold validateLocalRepository
  rw [h1, h2]
  dsimp only []
  constructor
  · intro hmem
    have hc : (branchListNames listing).contains cfg.branchB = true := by
      rw [contains_eq_mem_decide]
      exact decide_eq_true hmem
    rw [if_pos hc]
  · intro hmem
    have hmem2 : cfg.branchB ∉ branchListNames listing := hmem
    have hc : (branchListNames listing).contains cfg.branchB = false := by
      rw [contains_eq_mem_decide]
      exact decide_eq_false hmem2
    rw [if_neg (by rw [hc]; simp)]

/-- Witness for C7: a marker-bearing listing passes for a listed branch
and produces the quoted message for a missing one. -/
theorem validateLocalRepository_branch_match_witness :
    "feature" ∈
      ((jsSplit '\n' "* main\n  dev\n  feature").map stripCheckoutMarker).filter
        (fun b => b != "") ∧
    "missing" ∉
      ((jsSplit '\n' "* main\n  dev\n  feature").map stripCheckoutMarker).filter
        (fun b => b != "") ∧
    validateLocalRepository { sampleConfig with branchB := "missing" }
        { sampleEnv with
          execGit := fun _ cmd =>
            if cmd = "git rev-parse --is-inside-work-tree" then .ok "true"
            else if cmd = "git branch --list" then .ok "* main\n  dev\n  feature"
            else .ok "" } =
      some ("Branch \x27missing\x27 does not exist locally") := by
  refine ⟨by decide, by decide, ?_⟩
  exact (validateLocalRepository_branch_match _ _ "true" "* main\n  dev\n  feature"
    (by decide) (by decide)).2 (by decide)

/-- Claim C8 (evaluation at the failing input): when the rejection has no
HTTP status the code formats the code position as `undefined` — not the
`Unknown` marker the specification and the repository's own test expect —
while the structured 404 case carries the expected pieces. -/
theorem getRemoteChanges_undefined_status_eval :
    getRemoteChanges sampleConfig noStatusEnv "mergebasecommithash123" =
      .error (.err "GitHub API error (undefined): Network Error") ∧
    strContains "GitHub API error (undefined): Network Error" "Unknown" = false ∧
    strContains "GitHub API error (undefined): Network Error" "undefined" = true ∧
    (findPotentialConflicts sampleConfig noStatusEnv).error? =
      some "GitHub API error (undefined): Network Error" ∧
    getRemoteChanges sampleConfig notFoundEnv "mergebasecommithash123" =
      .error (.err "GitHub API error (404): Not Found") ∧
    strContains "GitHub API error (404): Not Found" "GitHub API error (404)" = true ∧
    strContains "GitHub API error (404): Not Found" "Not Found" = true := by
  refine ⟨by decide, by decide, by decide, by decide, by decide, by decide, by decide⟩

/-- Claim C9: a response body with no files array is treated as an empty
change list, not a failure — with all prior stages succeeding the
operation returns no conflicts and no error — and a present files array
is mapped entrywise, path and status verbatim. -/
theorem getRemoteChanges_files_tolerant (cfg : GitConflictDetectorConfig)
    (env : Env) (mb : String) (files lcs : List FileChange) :
    (env.githubCompare (compareUrl cfg mb) cfg.accessToken = .ok none →
       getRemoteChanges cfg env mb = .ok []) ∧
    (env.githubCompare (compareUrl cfg mb) cfg.accessToken = .ok (some files) →
       getRemoteChanges cfg env mb =
         .ok (files.map (fun f => { filename := f.filename, status := f.status }))) ∧
    (validateConfig cfg env = none → validateLocalRepository cfg env = none →
     findMergeBaseCommit cfg env = .ok mb →
     getLocalChanges cfg env mb = .ok lcs →
     env.githubCompare (compareUrl cfg mb) cfg.accessToken = .ok none →
       findPotentialConflicts cfg env =
         { potentialConflicts := [], mergeBaseCommit := mb, error? := none }) := by
  refine ⟨?_, ?_, ?_⟩
  · intro h
    unfold getRemoteChanges
    rw [h]
    rfl
  · intro h
    unfold getRemoteChanges
    rw [h]
    rfl
  · intro hv hr hmb hl hg
    have hrc : getRemoteChanges cfg env mb = .ok [] := by
      unfold getRemoteChanges
      rw [hg]
      rfl
    unfold findPotentialConflicts findPotentialConflictsTraced
    rw [hv, hr, hmb]
    dsimp only []
    rw [hl]
    dsimp only []
    rw [hrc]
    dsimp only []
    rfl

/-- Witness for C9: with a `files`-less response body and every prior
stage succeeding, the result is conflict-free and error-free. -/
theorem getRemoteChanges_files_tolerant_witness :
    noFilesEnv.githubCompare (compareUrl sampleConfig "mergebasecommithash123")
        sampleConfig.accessToken = .ok none ∧
    validateConfig sampleConfig noFilesEnv = none ∧
    validateLocalRepository sampleConfig noFilesEnv = none ∧
    findMergeBaseCommit sampleConfig noFilesEnv = .ok "mergebasecommithash123" ∧
    getLocalChanges sampleConfig noFilesEnv "mergebasecommithash123" =
      .ok [⟨"src/file1.js", "M"⟩, ⟨"src/file2.js", "A"⟩, ⟨"src/file3.js", "D"⟩] ∧
    findPotentialConflicts sampleConfig noFilesEnv =
      { potentialConflicts := [], mergeBaseCommit := "mergebasecommithash123",
        error? := none } := by
  refine ⟨by decide, by decide, by decide, by decide, by decide, ?_⟩
  exact (getRemoteChanges_files_tolerant sampleConfig noFilesEnv "mergebasecommithash123"
    [] [⟨"src/file1.js", "M"⟩, ⟨"src/file2.js", "A"⟩, ⟨"src/file3.js", "D"⟩]).2.2
    (by decide) (by decide) (by decide) (by decide) (by decide)

end GitConflict
